import Mathlib

/-!
Formal model of `src/main.go`: a bounded-depth crawler with a memoizing
fetch cache.  Go functions are embedded as pure Lean functions: the
mutable cache map becomes an association list threaded through each
call, goroutine side effects become an explicit event trace in the
sequential depth-first interleaving, and the `sync.WaitGroup` counter
becomes the integer sum of `add` and `done` events of that trace.
-/

namespace Crawler

/-- Reply of a fetch, mirroring Go's `(body string, urls []string, err error)`
multiple return values; `err` carries the error text when the error is non-nil. -/
structure FetchReply where
  body : String
  urls : List String
  err : Option String
deriving DecidableEq

/-- The `Fetcher` interface: one operation from a url to a reply.
Concrete implementations are pure functions here. -/
abbrev Fetcher := String → FetchReply

/-- Go struct `fakeResult`: a canned body and list of urls. -/
structure fakeResult where
  body : String
  urls : List String
deriving DecidableEq

/-- Go type `fakeFetcher`, a map from url to canned result, as an association list. -/
abbrev fakeFetcher := List (String × fakeResult)

/-- Map lookup in a `fakeFetcher` table. -/
def findResult : fakeFetcher → String → Option fakeResult
  | [], _ => none
  | (k, v) :: rest, url => if k = url then some v else findResult rest url

/-- Go method `fakeFetcher.Fetch`: the canned result when the url is present,
otherwise the error `not found: <url>` (src/main.go lines 61-66). -/
def fakeFetcher.Fetch (f : fakeFetcher) (url : String) : FetchReply :=
  match findResult f url with
  | some res => { body := res.body, urls := res.urls, err := none }
  | none => { body := "", urls := [], err := some ("not found: " ++ url) }

/-- The populated `fetcher` table from src/main.go lines 69-100. -/
def fetcher : fakeFetcher := [
  ("https://golang.org/",
    ⟨"The Go Programming Language",
     ["https://golang.org/pkg/", "https://golang.org/cmd/"]⟩),
  ("https://golang.org/pkg/",
    ⟨"Packages",
     ["https://golang.org/", "https://golang.org/cmd/",
      "https://golang.org/pkg/fmt/", "https://golang.org/pkg/os/"]⟩),
  ("https://golang.org/pkg/fmt/",
    ⟨"Package fmt", ["https://golang.org/", "https://golang.org/pkg/"]⟩),
  ("https://golang.org/pkg/os/",
    ⟨"Package os", ["https://golang.org/", "https://golang.org/pkg/"]⟩)]

/-- Go struct `CacheItem`: the cached body and urls of one identifier. -/
structure CacheItem where
  body : String
  urls : List String
deriving DecidableEq

/-- Cache map lookup, mirroring `item, cacheExists := f.items[url]`. -/
def lookupItem : List (String × CacheItem) → String → Option CacheItem
  | [], _ => none
  | (k, v) :: rest, url => if k = url then some v else lookupItem rest url

/-- Go map assignment `f.items[url] = item`: replace the binding when the
key is present, append a fresh binding otherwise. -/
def insertItem : List (String × CacheItem) → String → CacheItem → List (String × CacheItem)
  | [], url, it => [(url, it)]
  | (k, v) :: rest, url, it =>
      if k = url then (k, it) :: rest else (k, v) :: insertItem rest url it

/-- Go struct `CacheFetcher`: the cache map plus the wrapped fetcher.  The
mutex only guards map access and has no sequential content. -/
structure CacheFetcher where
  items : List (String × CacheItem)
  fetcher : Fetcher

/-- Observable outcome of one `CacheFetcher.Fetch` call: the three Go return
values, the cache map after the call, the lines the call printed directly to
stdout, and the urls it passed to the underlying fetcher. -/
structure FetchEffect where
  body : String
  urls : List String
  err : Option String
  items : List (String × CacheItem)
  printed : List String
  calls : List String
deriving DecidableEq

/-- Go method `CacheFetcher.Fetch` (src/main.go lines 113-129): on a cache
hit, print a diagnostic line and return the cached item; on a miss, call the
underlying fetcher and insert the result into the cache only on success. -/
def CacheFetcher.Fetch (f : CacheFetcher) (url : String) : FetchEffect :=
  match lookupItem f.items url with
  | some item =>
      { body := item.body, urls := item.urls, err := none, items := f.items,
        printed := ["hit from cache: " ++ url ++ " " ++ item.body], calls := [] }
  | none =>
      let r := f.fetcher url
      match r.err with
      | none =>
          { body := r.body, urls := r.urls, err := none,
            items := insertItem f.items url { body := r.body, urls := r.urls },
            printed := [], calls := [url] }
      | some e =>
          { body := r.body, urls := r.urls, err := some e, items := f.items,
            printed := [], calls := [url] }

/-- Go function `NewCacheFetcher` (lines 131-136): an empty cache around a fetcher. -/
def NewCacheFetcher (f : Fetcher) : CacheFetcher := { items := [], fetcher := f }

/-- Run a sequence of wrapper fetches, threading the cache map through. -/
def runFetches (f : Fetcher) (items : List (String × CacheItem)) : List String → List (String × CacheItem)
  | [] => items
  | u :: us => runFetches f (CacheFetcher.Fetch { items := items, fetcher := f } u).items us

/-- One observable step of the crawl: a capability fetch, a send on the output
channel, a WaitGroup `Add(1)`, a WaitGroup `Done`, or a close of the output
channel (an operation the program never performs anywhere). -/
inductive Event where
  | fetch (url : String)
  | send (msg : String)
  | add
  | done
  | closeChan
deriving DecidableEq

/-- Go's fmt %q verb on a string that needs no escaping. -/
def quoteGo (s : String) : String := "\"" ++ s ++ "\""

/-- A retrieval capability as used by `Crawl`: a state-threading fetch
function.  The memoizing wrapper carries its cache map as the state; a plain
fetcher carries trivial state. -/
abbrev Capability (σ : Type) := σ → String → FetchReply × σ

/-- Spawn loop of `Crawl` (lines 30-33): for each url, `wg.Add(1)` and then
the spawned child task `step`, threading state in program order. -/
def CrawlChildrenWith {σ : Type} (step : String → σ → List Event × σ) :
    List String → σ → List Event × σ
  | [], s => ([], s)
  | u :: us, s =>
    let c1 := step u s
    let c2 := CrawlChildrenWith step us c1.2
    (Event.add :: (c1.1 ++ c2.1), c2.2)

/-- Go function `Crawl` (lines 16-35) with the depth bound as fuel.  The
returned trace is the sequential depth-first interleaving of the events of
this invocation: the deferred `wg.Done` of an invocation is its last own
event, and each spawned child's events follow its `wg.Add(1)`. -/
def CrawlN {σ : Type} (cap : Capability σ) : Nat → String → σ → List Event × σ
  | 0, _, s => ([Event.done], s)
  | d + 1, url, s =>
    let r := (cap s url).1
    let s1 := (cap s url).2
    match r.err with
    | some e => ([Event.fetch url, Event.send e, Event.done], s1)
    | none =>
      let c := CrawlChildrenWith (fun u t => CrawlN cap d u t) r.urls s1
      (Event.fetch url ::
        Event.send ("found: " ++ url ++ " " ++ quoteGo r.body) :: (c.1 ++ [Event.done]), c.2)

/-- Go `Crawl` with its int depth parameter: `depth <= 0` is the exhausted
early return, so `Crawl` agrees with `CrawlN` at fuel `depth.toNat`. -/
def Crawl {σ : Type} (cap : Capability σ) (url : String) (depth : Int) (s : σ) :
    List Event × σ :=
  CrawlN cap depth.toNat url s

/-- Number of capability fetches in a trace. -/
def fetchCount : List Event → Nat
  | [] => 0
  | Event.fetch _ :: t => fetchCount t + 1
  | _ :: t => fetchCount t

/-- Number of sends on the output channel in a trace. -/
def sendCount : List Event → Nat
  | [] => 0
  | Event.send _ :: t => sendCount t + 1
  | _ :: t => sendCount t

/-- Number of WaitGroup `Add(1)` operations in a trace. -/
def addCount : List Event → Nat
  | [] => 0
  | Event.add :: t => addCount t + 1
  | _ :: t => addCount t

/-- Number of WaitGroup `Done` operations in a trace. -/
def doneCount : List Event → Nat
  | [] => 0
  | Event.done :: t => doneCount t + 1
  | _ :: t => doneCount t

/-- Number of channel-close operations in a trace. -/
def closeCount : List Event → Nat
  | [] => 0
  | Event.closeChan :: t => closeCount t + 1
  | _ :: t => closeCount t

/-- Effect of one event on the WaitGroup counter. -/
def wgDelta : Event → Int
  | Event.add => 1
  | Event.done => -1
  | _ => 0

/-- Net effect of a trace on the WaitGroup counter. -/
def wgSum : List Event → Int
  | [] => 0
  | e :: t => wgDelta e + wgSum t

/-- A Go channel's buffering state: its fixed capacity and how many sent
messages currently sit in its buffer. -/
structure Chan where
  capacity : Nat
  buffered : Nat
deriving DecidableEq

/-- The channel `output := make(chan string)` from src/main.go line 38: Go's
`make` with no capacity argument yields an unbuffered channel of capacity 0. -/
def output : Chan := { capacity := 0, buffered := 0 }

/-- Go channel send semantics: a send proceeds without blocking exactly when
a receiver is ready to take the value or the buffer has room. -/
def sendNonBlocking (c : Chan) (receiverReady : Bool) : Bool :=
  receiverReady || decide (c.buffered < c.capacity)

/-- A `CacheFetcher` over the underlying fetcher `f`, used as the crawl's
capability with its cache map threaded as the state. -/
def CacheFetcher.toCapability (f : Fetcher) : Capability (List (String × CacheItem)) :=
  fun items url =>
    ({ body := (CacheFetcher.Fetch { items := items, fetcher := f } url).body,
       urls := (CacheFetcher.Fetch { items := items, fetcher := f } url).urls,
       err := (CacheFetcher.Fetch { items := items, fetcher := f } url).err },
     (CacheFetcher.Fetch { items := items, fetcher := f } url).items)

/-- Event trace of `main` (lines 37-51): `wg.Add(1)` for the root task, then
the root `Crawl` of `https://golang.org/` at depth 4 through a fresh
`CacheFetcher` over the canned `fetcher`.  The consumer goroutine only
receives and prints, contributing no events. -/
def mainTrace : List Event :=
  Event.add ::
    (Crawl (CacheFetcher.toCapability (fun u => fakeFetcher.Fetch fetcher u))
      "https://golang.org/" 4
      (NewCacheFetcher (fun u => fakeFetcher.Fetch fetcher u)).items).1

/-- A small concrete fetcher used to instantiate the generic theorems. -/
def wFetcher : Fetcher := fun u =>
  if u = "a" then { body := "B", urls := ["c"], err := none }
  else if u = "c" then { body := "C", urls := [], err := none }
  else { body := "", urls := [], err := some ("not found: " ++ u) }

/-- The fetcher `wFetcher` as a stateless capability. -/
def wCap : Capability Unit := fun s u => (wFetcher u, s)

/-- A fetcher whose direct result is never consulted on a cache hit. -/
def cexFetcher : Fetcher := fun u =>
  { body := "", urls := [], err := some ("not found: " ++ u) }

/-! ### Cache-map lemmas -/

theorem lookupItem_insertItem_self (items : List (String × CacheItem)) (url : String)
    (it : CacheItem) : lookupItem (insertItem items url it) url = some it := by
  induction items with
  | nil => simp [insertItem, lookupItem]
  | cons p rest ih =>
    obtain ⟨k, v⟩ := p
    by_cases hk : k = url
    · simp [insertItem, hk, lookupItem]
    · simp only [insertItem, if_neg hk, lookupItem, ih]

theorem lookupItem_insertItem_ne (items : List (String × CacheItem)) (url k : String)
    (it : CacheItem) (h : k ≠ url) :
    lookupItem (insertItem items url it) k = lookupItem items k := by
  induction items with
  | nil => simp [insertItem, lookupItem, if_neg (Ne.symm h)]
  | cons p rest ih =>
    obtain ⟨k2, v⟩ := p
    by_cases hk : k2 = url
    · subst hk
      simp only [insertItem, if_pos rfl, lookupItem]
      rw [if_neg (Ne.symm h), if_neg (Ne.symm h)]
    · simp only [insertItem, if_neg hk, lookupItem, ih]

/-- On a cache hit the wrapper returns the cached item, leaves the cache
unchanged, prints one diagnostic line, and does not call the underlying
fetcher. -/
theorem CacheFetcher.Fetch_hit (f : Fetcher) (items : List (String × CacheItem)) (url : String)
    (it : CacheItem) (h : lookupItem items url = some it) :
    CacheFetcher.Fetch { items := items, fetcher := f } url =
      { body := it.body, urls := it.urls, err := none, items := items,
        printed := ["hit from cache: " ++ url ++ " " ++ it.body], calls := [] } := by
  simp [CacheFetcher.Fetch, h]

/-- How one wrapper call changes the cache map, at every key: only the slot
of the requested url can change, and only from absent to the fetched item. -/
theorem CacheFetcher.Fetch_items_lookup (f : Fetcher) (items : List (String × CacheItem))
    (url k : String) :
    lookupItem (CacheFetcher.Fetch { items := items, fetcher := f } url).items k =
      (if k = url ∧ lookupItem items url = none ∧ (f url).err = none
       then some { body := (f url).body, urls := (f url).urls }
       else lookupItem items k) := by
  rcases hl : lookupItem items url with _ | it
  · rcases he : (f url).err with _ | e
    · by_cases hk : k = url
      · subst hk
        simp [CacheFetcher.Fetch, hl, he, lookupItem_insertItem_self]
      · simp [CacheFetcher.Fetch, hl, he, lookupItem_insertItem_ne items url k _ hk, hk]
    · simp [CacheFetcher.Fetch, hl, he]
  · simp [CacheFetcher.Fetch, hl]

/-- A successful wrapper call leaves the returned body and urls cached under
the fetched url. -/
theorem CacheFetcher.Fetch_success_lookup (f : Fetcher) (items : List (String × CacheItem))
    (url : String) (h : (CacheFetcher.Fetch { items := items, fetcher := f } url).err = none) :
    lookupItem (CacheFetcher.Fetch { items := items, fetcher := f } url).items url =
      some { body := (CacheFetcher.Fetch { items := items, fetcher := f } url).body,
             urls := (CacheFetcher.Fetch { items := items, fetcher := f } url).urls } := by
  rcases hl : lookupItem items url with _ | it
  · rcases he : (f url).err with _ | e
    · simp [CacheFetcher.Fetch, hl, he, lookupItem_insertItem_self]
    · exact absurd h (by simp [CacheFetcher.Fetch, hl, he])
  · rw [CacheFetcher.Fetch_hit f items url it hl]
    exact hl

/-- An existing cache entry survives any single wrapper call unchanged. -/
theorem CacheFetcher.Fetch_preserves (f : Fetcher) (items : List (String × CacheItem))
    (url u : String) (it : CacheItem) (h : lookupItem items url = some it) :
    lookupItem (CacheFetcher.Fetch { items := items, fetcher := f } u).items url = some it := by
  rw [CacheFetcher.Fetch_items_lookup]
  by_cases hu : url = u
  · subst hu; simp [h]
  · simp [hu, h]

/-- An existing cache entry survives any sequence of wrapper calls unchanged. -/
theorem runFetches_preserves (f : Fetcher) (us : List String)
    (items : List (String × CacheItem)) (url : String) (it : CacheItem)
    (h : lookupItem items url = some it) :
    lookupItem (runFetches f items us) url = some it := by
  induction us generalizing items with
  | nil => simpa [runFetches] using h
  | cons u us ih =>
    simp only [runFetches]
    exact ih _ (CacheFetcher.Fetch_preserves f items url u it h)

/-! ### Crawl trace lemmas -/

theorem CrawlChildrenWith_cons {σ : Type} (step : String → σ → List Event × σ)
    (u : String) (us : List String) (s : σ) :
    CrawlChildrenWith step (u :: us) s =
      (Event.add :: ((step u s).1 ++ (CrawlChildrenWith step us (step u s).2).1),
       (CrawlChildrenWith step us (step u s).2).2) := rfl

theorem CrawlN_zero {σ : Type} (cap : Capability σ) (url : String) (s : σ) :
    CrawlN cap 0 url s = ([Event.done], s) := rfl

theorem CrawlN_succ_fail {σ : Type} (cap : Capability σ) (d : Nat) (url : String) (s : σ)
    (e : String) (h : ((cap s url).1).err = some e) :
    CrawlN cap (d + 1) url s = ([Event.fetch url, Event.send e, Event.done], (cap s url).2) := by
  simp [CrawlN, h]

theorem CrawlN_succ_ok {σ : Type} (cap : Capability σ) (d : Nat) (url : String) (s : σ)
    (h : ((cap s url).1).err = none) :
    CrawlN cap (d + 1) url s =
      (Event.fetch url ::
        Event.send ("found: " ++ url ++ " " ++ quoteGo ((cap s url).1).body) ::
        ((CrawlChildrenWith (fun u t => CrawlN cap d u t) ((cap s url).1).urls (cap s url).2).1
          ++ [Event.done]),
       (CrawlChildrenWith (fun u t => CrawlN cap d u t) ((cap s url).1).urls (cap s url).2).2) := by
  simp [CrawlN, h]

theorem wgSum_append (a b : List Event) : wgSum (a ++ b) = wgSum a + wgSum b := by
  induction a with
  | nil => simp [wgSum]
  | cons e t ih =>
    show wgDelta e + wgSum (t ++ b) = wgDelta e + wgSum t + wgSum b
    rw [ih]
    omega

theorem closeCount_append (a b : List Event) :
    closeCount (a ++ b) = closeCount a + closeCount b := by
  induction a with
  | nil => simp [closeCount]
  | cons e t ih =>
    cases e with
    | closeChan =>
      show closeCount (t ++ b) + 1 = closeCount t + 1 + closeCount b
      rw [ih]
      omega
    | fetch u => simp [closeCount, ih]
    | send m => simp [closeCount, ih]
    | add => simp [closeCount, ih]
    | done => simp [closeCount, ih]

theorem wgSum_counts (t : List Event) :
    wgSum t = (addCount t : Int) - (doneCount t : Int) := by
  induction t with
  | nil => simp [wgSum, addCount, doneCount]
  | cons e t ih =>
    cases e <;> simp only [wgSum, wgDelta, addCount, doneCount, ih] <;> omega

@[simp] theorem wgSum_nil : wgSum [] = 0 := rfl

@[simp] theorem wgSum_cons (e : Event) (t : List Event) :
    wgSum (e :: t) = wgDelta e + wgSum t := rfl

@[simp] theorem wgDelta_fetch (u : String) : wgDelta (Event.fetch u) = 0 := rfl

@[simp] theorem wgDelta_send (m : String) : wgDelta (Event.send m) = 0 := rfl

@[simp] theorem wgDelta_add : wgDelta Event.add = 1 := rfl

@[simp] theorem wgDelta_done : wgDelta Event.done = -1 := rfl

/-- Trace invariants of the spawn loop of `Crawl`: its WaitGroup effects
balance to zero, it closes no channel, and at no point of its trace have more
`done` than `add` effects accumulated. -/
theorem CrawlChildrenWith_invariant {σ : Type} (step : String → σ → List Event × σ)
    (hstep : ∀ u s, wgSum (step u s).1 = -1 ∧ closeCount (step u s).1 = 0 ∧
      ∀ n, n < (step u s).1.length → 0 ≤ wgSum ((step u s).1.take n)) :
    ∀ (urls : List String) (s : σ),
      wgSum (CrawlChildrenWith step urls s).1 = 0 ∧
      closeCount (CrawlChildrenWith step urls s).1 = 0 ∧
      ∀ n, 0 ≤ wgSum ((CrawlChildrenWith step urls s).1.take n) := by
  intro urls
  induction urls with
  | nil =>
    intro s
    refine ⟨rfl, rfl, fun n => ?_⟩
    show 0 ≤ wgSum (List.take n [])
    rw [List.take_nil]
    exact le_refl 0
  | cons u us ih =>
    intro s
    obtain ⟨h1, h2, h3⟩ := hstep u s
    obtain ⟨g1, g2, g3⟩ := ih (step u s).2
    rw [CrawlChildrenWith_cons]
    refine ⟨?_, ?_, ?_⟩
    · rw [wgSum_cons, wgDelta_add, wgSum_append, h1, g1]
      decide
    · show closeCount ((step u s).1 ++ (CrawlChildrenWith step us (step u s).2).1) = 0
      rw [closeCount_append, h2, g2]
    · intro n
      rcases n with _ | m
      · rw [List.take_zero]
        exact le_refl 0
      · rw [List.take_succ_cons, wgSum_cons, wgDelta_add,
          List.take_append_eq_append_take, wgSum_append]
        have hA : -1 ≤ wgSum ((step u s).1.take m) := by
          rcases Nat.lt_or_ge m (step u s).1.length with hm | hm
          · have := h3 m hm
            omega
          · rw [List.take_of_length_le hm]
            omega
        have hB := g3 (m - (step u s).1.length)
        omega

/-- Trace invariants of one `Crawl` invocation: its net WaitGroup effect is
-1 (its own deferred `Done`), it closes no channel, and no proper prefix of
its trace lets the `done` effects outnumber the `add` effects. -/
theorem CrawlN_invariant {σ : Type} (cap : Capability σ) :
    ∀ (d : Nat) (url : String) (s : σ),
      wgSum (CrawlN cap d url s).1 = -1 ∧
      closeCount (CrawlN cap d url s).1 = 0 ∧
      ∀ n, n < (CrawlN cap d url s).1.length → 0 ≤ wgSum ((CrawlN cap d url s).1.take n) := by
  intro d
  induction d with
  | zero =>
    intro url s
    refine ⟨rfl, rfl, fun n hn => ?_⟩
    rw [CrawlN_zero] at hn ⊢
    have hn0 : n = 0 := by
      simp only [List.length_cons, List.length_nil] at hn
      omega
    subst hn0
    rw [List.take_zero]
    exact le_refl 0
  | succ d ih =>
    intro url s
    rcases he : ((cap s url).1).err with _ | e
    · obtain ⟨g1, g2, g3⟩ :=
        CrawlChildrenWith_invariant (fun u t => CrawlN cap d u t) (fun u t => ih u t)
          ((cap s url).1).urls (cap s url).2
      rw [CrawlN_succ_ok cap d url s he]
      refine ⟨?_, ?_, ?_⟩
      · rw [wgSum_cons, wgSum_cons, wgSum_append, wgDelta_fetch, wgDelta_send, g1,
          wgSum_cons, wgSum_nil, wgDelta_done]
        decide
      · show closeCount
            ((CrawlChildrenWith (fun u t => CrawlN cap d u t) ((cap s url).1).urls
              (cap s url).2).1 ++ [Event.done]) = 0
        rw [closeCount_append, g2]
        rfl
      · intro n hn
        rcases n with _ | n
        · rw [List.take_zero]
          exact le_refl 0
        rcases n with _ | m
        · rw [List.take_succ_cons, List.take_zero, wgSum_cons, wgDelta_fetch, wgSum_nil]
          omega
        · rw [List.take_succ_cons, List.take_succ_cons, wgSum_cons, wgSum_cons,
            wgDelta_fetch, wgDelta_send, List.take_append_eq_append_take]
          have hlen : m ≤ (CrawlChildrenWith (fun u t => CrawlN cap d u t)
              ((cap s url).1).urls (cap s url).2).1.length := by
            simp only [List.length_cons, List.length_append, List.length_singleton,
              List.length_nil] at hn
            omega
          rw [Nat.sub_eq_zero_of_le hlen, List.take_zero, List.append_nil]
          have hB := g3 m
          omega
    · rw [CrawlN_succ_fail cap d url s e he]
      refine ⟨rfl, rfl, fun n hn => ?_⟩
      simp only [List.length_cons, List.length_nil] at hn
      interval_cases n
      · rw [List.take_zero]
        exact le_refl 0
      · rw [List.take_succ_cons, List.take_zero, wgSum_cons, wgDelta_fetch, wgSum_nil]
        omega
      · rw [List.take_succ_cons, List.take_succ_cons, List.take_zero, wgSum_cons,
          wgSum_cons, wgDelta_fetch, wgDelta_send, wgSum_nil]
        omega

/-! ### Claim theorems -/

/-- C1: for every identifier fetched successfully through the memoizing
wrapper, every subsequent wrapper `Fetch` of the same identifier — after any
interleaved sequence of other wrapper fetches — returns the cached
`(content, references, nil)` without invoking the underlying capability
again (its `calls` list is empty). -/
theorem cache_hit_after_success (f : Fetcher) (items : List (String × CacheItem))
    (url : String) (us : List String)
    (h : (CacheFetcher.Fetch { items := items, fetcher := f } url).err = none) :
    ∃ it : CacheItem,
      lookupItem (runFetches f (CacheFetcher.Fetch { items := items, fetcher := f } url).items us)
          url = some it ∧
      it.body = (CacheFetcher.Fetch { items := items, fetcher := f } url).body ∧
      it.urls = (CacheFetcher.Fetch { items := items, fetcher := f } url).urls ∧
      CacheFetcher.Fetch
          { items := runFetches f (CacheFetcher.Fetch { items := items, fetcher := f } url).items us,
            fetcher := f } url =
        { body := it.body, urls := it.urls, err := none,
          items := runFetches f (CacheFetcher.Fetch { items := items, fetcher := f } url).items us,
          printed := ["hit from cache: " ++ url ++ " " ++ it.body], calls := [] } := by
  have hcached := CacheFetcher.Fetch_success_lookup f items url h
  have hkept := runFetches_preserves f us _ url _ hcached
  exact ⟨_, hkept, rfl, rfl, CacheFetcher.Fetch_hit f _ url _ hkept⟩

/-- Witness for C1 at a concrete fetcher, an empty cache, and one
interleaved fetch of another identifier. -/
theorem cache_hit_after_success_witness :
    (CacheFetcher.Fetch { items := [], fetcher := wFetcher } "a").err = none ∧
    ∃ it : CacheItem,
      lookupItem
          (runFetches wFetcher (CacheFetcher.Fetch { items := [], fetcher := wFetcher } "a").items
            ["c"]) "a" = some it ∧
      it.body = (CacheFetcher.Fetch { items := [], fetcher := wFetcher } "a").body ∧
      it.urls = (CacheFetcher.Fetch { items := [], fetcher := wFetcher } "a").urls ∧
      CacheFetcher.Fetch
          { items := runFetches wFetcher
              (CacheFetcher.Fetch { items := [], fetcher := wFetcher } "a").items ["c"],
            fetcher := wFetcher } "a" =
        { body := it.body, urls := it.urls, err := none,
          items := runFetches wFetcher
            (CacheFetcher.Fetch { items := [], fetcher := wFetcher } "a").items ["c"],
          printed := ["hit from cache: " ++ "a" ++ " " ++ it.body], calls := [] } :=
  ⟨rfl, cache_hit_after_success wFetcher [] "a" ["c"] rfl⟩

/-- C2: when the underlying capability fails, the wrapper returns the very
body, urls and error of the underlying reply unchanged, inserts nothing (the
cache map is exactly as before the call), and a retry of the same identifier
invokes the underlying capability again. -/
theorem fetch_error_propagated (f : Fetcher) (items : List (String × CacheItem))
    (url e : String) (hmiss : lookupItem items url = none) (herr : (f url).err = some e) :
    CacheFetcher.Fetch { items := items, fetcher := f } url =
      { body := (f url).body, urls := (f url).urls, err := some e,
        items := items, printed := [], calls := [url] } ∧
    (CacheFetcher.Fetch
        { items := (CacheFetcher.Fetch { items := items, fetcher := f } url).items,
          fetcher := f } url).calls = [url] := by
  have h1 : CacheFetcher.Fetch { items := items, fetcher := f } url =
      { body := (f url).body, urls := (f url).urls, err := some e,
        items := items, printed := [], calls := [url] } := by
    simp [CacheFetcher.Fetch, hmiss, herr]
  refine ⟨h1, ?_⟩
  rw [h1]
  simp [CacheFetcher.Fetch, hmiss, herr]

/-- Witness for C2 at a concrete fetcher failing on an unknown identifier. -/
theorem fetch_error_propagated_witness :
    (lookupItem [] "z" = none ∧ (wFetcher "z").err = some ("not found: " ++ "z")) ∧
    (CacheFetcher.Fetch { items := [], fetcher := wFetcher } "z" =
      { body := (wFetcher "z").body, urls := (wFetcher "z").urls,
        err := some ("not found: " ++ "z"), items := [], printed := [], calls := ["z"] } ∧
     (CacheFetcher.Fetch
        { items := (CacheFetcher.Fetch { items := [], fetcher := wFetcher } "z").items,
          fetcher := wFetcher } "z").calls = ["z"]) :=
  ⟨⟨rfl, rfl⟩, fetch_error_propagated wFetcher [] "z" ("not found: " ++ "z") rfl rfl⟩

/-- C3: a `Crawl` invocation with non-positive remaining depth performs zero
capability fetches, sends zero messages, and returns immediately with the
state unchanged — its whole trace is its own deferred `wg.Done`. -/
theorem crawl_depth_exhausted {σ : Type} (cap : Capability σ) (url : String) (depth : Int)
    (s : σ) (h : depth ≤ 0) :
    fetchCount (Crawl cap url depth s).1 = 0 ∧
    sendCount (Crawl cap url depth s).1 = 0 ∧
    Crawl cap url depth s = ([Event.done], s) := by
  have h0 : depth.toNat = 0 := Int.toNat_eq_zero.mpr h
  unfold Crawl
  rw [h0]
  exact ⟨rfl, rfl, rfl⟩

/-- Witness for C3 at depth 0 over a concrete capability. -/
theorem crawl_depth_exhausted_witness :
    (0 : Int) ≤ 0 ∧
    (fetchCount (Crawl wCap "a" 0 ()).1 = 0 ∧ sendCount (Crawl wCap "a" 0 ()).1 = 0 ∧
      Crawl wCap "a" 0 () = ([Event.done], ())) :=
  ⟨le_refl 0, crawl_depth_exhausted wCap "a" 0 () (le_refl 0)⟩

/-- C4: completion tracking over a crawl trace.  Starting from the waiting
party's one unit for the root task (main's `wg.Add(1)`), the counter reaches
exactly zero at the end of the trace; every invocation decrements exactly
once on its return path, so `done` events outnumber `add` events by exactly
the root task; and at every proper trace position the counter is still
strictly positive — the waiting party observes zero exactly when every
spawned task has finished.  Each child's `add` is emitted before the child's
first own event by construction of the spawn loop. -/
theorem completion_tracker_balanced {σ : Type} (cap : Capability σ) (url : String)
    (depth : Int) (s : σ) (n : Nat) (hn : n < (Crawl cap url depth s).1.length) :
    1 + wgSum (Crawl cap url depth s).1 = 0 ∧
    doneCount (Crawl cap url depth s).1 = addCount (Crawl cap url depth s).1 + 1 ∧
    0 < 1 + wgSum ((Crawl cap url depth s).1.take n) := by
  simp only [Crawl] at hn ⊢
  obtain ⟨h1, h2, h3⟩ := CrawlN_invariant cap depth.toNat url s
  have hc := wgSum_counts (CrawlN cap depth.toNat url s).1
  have hp := h3 n hn
  exact ⟨by omega, by omega, by omega⟩

/-- Witness for C4 on a depth-1 crawl with one spawned child. -/
theorem completion_tracker_balanced_witness :
    2 < (Crawl wCap "a" 1 ()).1.length ∧
    (1 + wgSum (Crawl wCap "a" 1 ()).1 = 0 ∧
     doneCount (Crawl wCap "a" 1 ()).1 = addCount (Crawl wCap "a" 1 ()).1 + 1 ∧
     0 < 1 + wgSum ((Crawl wCap "a" 1 ()).1.take 2)) :=
  ⟨by decide, completion_tracker_balanced wCap "a" 1 () 2 (by decide)⟩

/-- C5 counterexample: the output channel of `main` is created by
`make(chan string)` with no capacity argument, so its capacity is 0 — not
unbounded — and a send with no ready receiver blocks. -/
theorem output_send_blocks :
    output.capacity = 0 ∧ sendNonBlocking output false = false := by
  decide

/-- C5 amended: the output sink is an unbuffered, capacity-zero channel; a
producer's send proceeds exactly when the single consumer is ready to
receive, and blocks otherwise. -/
theorem output_unbuffered :
    output.capacity = 0 ∧ ∀ r : Bool, sendNonBlocking output r = r := by
  decide

/-- C6: within one `Crawl` invocation, the task's own success-or-failure
message is sent before any child is spawned: whenever a crawl trace contains
a spawn (`add`) event at all, a send precedes the first spawn. -/
theorem message_before_children {σ : Type} (cap : Capability σ) (url : String)
    (depth : Int) (s : σ) (h : Event.add ∈ (Crawl cap url depth s).1) :
    ∃ pre m post,
      (Crawl cap url depth s).1 = pre ++ Event.send m :: post ∧ addCount pre = 0 := by
  unfold Crawl at h ⊢
  by_cases hdep : depth.toNat = 0
  · rw [hdep, CrawlN_zero] at h
    simp at h
  · obtain ⟨d, hdn⟩ : ∃ d, depth.toNat = d + 1 := ⟨depth.toNat - 1, by omega⟩
    rw [hdn] at h ⊢
    rcases he : ((cap s url).1).err with _ | e
    · rw [CrawlN_succ_ok cap d url s he]
      exact ⟨[Event.fetch url], _, _, rfl, rfl⟩
    · rw [CrawlN_succ_fail cap d url s e he] at h
      simp at h

/-- Witness for C6 on a depth-1 crawl whose root fetch succeeds and spawns. -/
theorem message_before_children_witness :
    Event.add ∈ (Crawl wCap "a" 1 ()).1 ∧
    ∃ pre m post,
      (Crawl wCap "a" 1 ()).1 = pre ++ Event.send m :: post ∧ addCount pre = 0 :=
  ⟨by decide, message_before_children wCap "a" 1 () (by decide)⟩

/-- C7: a fetch failure is purely local: at positive depth with a failing
capability reply, the invocation's trace is exactly one capability fetch,
one failure message carrying the error text, and its own `Done` — one send,
zero spawned children — and the invocation returns normally with the
capability's post-state. -/
theorem fetch_failure_is_local {σ : Type} (cap : Capability σ) (url : String) (depth : Int)
    (s : σ) (e : String) (hd : 0 < depth) (he : ((cap s url).1).err = some e) :
    (Crawl cap url depth s).1 = [Event.fetch url, Event.send e, Event.done] ∧
    sendCount (Crawl cap url depth s).1 = 1 ∧
    addCount (Crawl cap url depth s).1 = 0 ∧
    (Crawl cap url depth s).2 = (cap s url).2 := by
  obtain ⟨d, hdn⟩ : ∃ d, depth.toNat = d + 1 := ⟨depth.toNat - 1, by omega⟩
  unfold Crawl
  rw [hdn, CrawlN_succ_fail cap d url s e he]
  exact ⟨rfl, rfl, rfl, rfl⟩

/-- Witness for C7 on a depth-1 crawl of an unknown identifier. -/
theorem fetch_failure_is_local_witness :
    ((0 : Int) < 1 ∧ ((wCap () "z").1).err = some ("not found: " ++ "z")) ∧
    ((Crawl wCap "z" 1 ()).1 =
        [Event.fetch "z", Event.send ("not found: " ++ "z"), Event.done] ∧
     sendCount (Crawl wCap "z" 1 ()).1 = 1 ∧
     addCount (Crawl wCap "z" 1 ()).1 = 0 ∧
     (Crawl wCap "z" 1 ()).2 = (wCap () "z").2) :=
  ⟨⟨by decide, rfl⟩,
    fetch_failure_is_local wCap "z" 1 () ("not found: " ++ "z") (by decide) rfl⟩

/-- C8 counterexample: on a cache hit the wrapper has a side effect beyond
mutating the cache — it prints a `hit from cache` diagnostic line directly
to standard output (src/main.go line 118). -/
theorem wrapper_hit_prints :
    (CacheFetcher.Fetch
        { items := [("a", { body := "b", urls := [] })], fetcher := cexFetcher } "a").printed =
      ["hit from cache: a b"] := rfl

/-- C8 amended: the wrapper sends nothing on the output channel (it holds no
reference to it); on a cache miss its only side effect is on the cache slot
of the requested identifier (updated only on success) with nothing printed;
on a cache hit it mutates nothing but additionally prints one diagnostic
line directly to standard output. -/
theorem wrapper_side_effects (f : Fetcher) (items : List (String × CacheItem)) (url : String) :
    (∃ it, lookupItem items url = some it ∧
      CacheFetcher.Fetch { items := items, fetcher := f } url =
        { body := it.body, urls := it.urls, err := none, items := items,
          printed := ["hit from cache: " ++ url ++ " " ++ it.body], calls := [] }) ∨
    (lookupItem items url = none ∧
      (CacheFetcher.Fetch { items := items, fetcher := f } url).printed = [] ∧
      (CacheFetcher.Fetch { items := items, fetcher := f } url).calls = [url] ∧
      ∀ k, lookupItem (CacheFetcher.Fetch { items := items, fetcher := f } url).items k =
        (if k = url ∧ (f url).err = none
         then some { body := (f url).body, urls := (f url).urls }
         else lookupItem items k)) := by
  rcases hl : lookupItem items url with _ | it
  · right
    refine ⟨rfl, ?_, ?_, ?_⟩
    · rcases he : (f url).err with _ | e <;> simp [CacheFetcher.Fetch, hl, he]
    · rcases he : (f url).err with _ | e <;> simp [CacheFetcher.Fetch, hl, he]
    · intro k
      rw [CacheFetcher.Fetch_items_lookup]
      by_cases hk : k = url
      · subst hk
        simp [hl]
      · simp [hk]
  · left
    exact ⟨it, rfl, CacheFetcher.Fetch_hit f items url it hl⟩

/-- C9: a cache entry is created exactly once and never mutated or evicted:
an entry present in the cache survives any further wrapper call and any
sequence of wrapper calls with the same value, and from a state where an
identifier is absent, one wrapper call creates its entry exactly when that
call is a successful retrieval of that very identifier. -/
theorem cache_entry_once (f : Fetcher) (items itemsA : List (String × CacheItem))
    (url u : String) (us : List String) (it : CacheItem)
    (hpresent : lookupItem items url = some it) (habsent : lookupItem itemsA url = none) :
    lookupItem (runFetches f items us) url = some it ∧
    lookupItem (CacheFetcher.Fetch { items := items, fetcher := f } u).items url = some it ∧
    lookupItem (CacheFetcher.Fetch { items := itemsA, fetcher := f } u).items url =
      (if u = url ∧ (f u).err = none
       then some { body := (f u).body, urls := (f u).urls }
       else none) := by
  refine ⟨runFetches_preserves f us items url it hpresent,
    CacheFetcher.Fetch_preserves f items url u it hpresent, ?_⟩
  rw [CacheFetcher.Fetch_items_lookup]
  by_cases hu : u = url
  · subst hu
    simp [habsent]
  · simp [hu, Ne.symm hu, habsent]

/-- Witness for C9 with a one-entry cache, an empty cache, and a fetch of a
different identifier. -/
theorem cache_entry_once_witness :
    (lookupItem [("a", { body := "B", urls := ["c"] })] "a" =
        some { body := "B", urls := ["c"] } ∧
     lookupItem [] "a" = none) ∧
    (lookupItem (runFetches wFetcher [("a", { body := "B", urls := ["c"] })] ["c"]) "a" =
        some { body := "B", urls := ["c"] } ∧
     lookupItem (CacheFetcher.Fetch
        { items := [("a", { body := "B", urls := ["c"] })], fetcher := wFetcher } "c").items "a" =
        some { body := "B", urls := ["c"] } ∧
     lookupItem (CacheFetcher.Fetch { items := [], fetcher := wFetcher } "c").items "a" =
        (if "c" = "a" ∧ (wFetcher "c").err = none
         then some { body := (wFetcher "c").body, urls := (wFetcher "c").urls }
         else none)) :=
  ⟨⟨rfl, rfl⟩,
    cache_entry_once wFetcher [("a", { body := "B", urls := ["c"] })] [] "a" "c" ["c"]
      { body := "B", urls := ["c"] } rfl rfl⟩

/-- C10: neither the crawler nor `main` ever closes the output channel: no
crawl trace, for any capability, identifier, depth and state, contains a
close event, and neither does the trace of `main`; the consumer's receive
loop therefore never observes end-of-stream. -/
theorem no_channel_close {σ : Type} (cap : Capability σ) (url : String) (depth : Int)
    (s : σ) :
    closeCount (Crawl cap url depth s).1 = 0 ∧ closeCount mainTrace = 0 := by
  refine ⟨(CrawlN_invariant cap depth.toNat url s).2.1, ?_⟩
  exact (CrawlN_invariant (CacheFetcher.toCapability (fun u => fakeFetcher.Fetch fetcher u))
      ((4 : Int).toNat) "https://golang.org/"
      (NewCacheFetcher (fun u => fakeFetcher.Fetch fetcher u)).items).2.1

end Crawler
